import Mathlib

/-!
Verification of the crypto-tracker repository (src/app.py) against its
natural-language specification.

The embedding below is a shallow model of the two core functions of
`src/app.py`:

* `get_price_history` (app.py lines 26-37): fetches a price series from the
  provider and converts it to a two-column DataFrame, returning `None`
  (here: `none`) whenever any step of the request/parse pipeline raises.
* `calculate_macd_rsi` (app.py lines 39-52): the indicator engine.  Prices
  are modelled as exact rationals (`ℚ`); pandas' NaN propagation is modelled
  with `Option ℚ` where NaN can actually reach an observable cell, and IEEE
  special cases of the single division `avg_gain / avg_loss` (x/0 = +inf for
  x > 0, 0/0 = NaN) are modelled explicitly in `rsiOfAvgs`.

Pandas semantics captured by the model, cell for cell:

* `Series.ewm(span=s, adjust=False).mean()` computes, with α = 2/(s+1),
  `y[0] = x[0]` and `y[i] = α·x[i] + (1−α)·y[i−1]`  (`ewm` below).
* `Series.diff()` yields NaN at index 0 and `x[i] − x[i−1]` afterwards
  (`diff` below, NaN as `none`).
* `delta.where(delta > 0, 0)` replaces every cell whose condition is False
  by 0 — including the NaN cell at index 0, since `NaN > 0` is False.  The
  gain/loss series therefore contain no NaN and start with an artificial 0
  (`gain`/`loss` below).
* `Series.rolling(w).mean()` is NaN until `w` observations are available,
  i.e. first defined at index `w−1` (`rollingMean` below).
-/

namespace CryptoTracker

/-- The two-column frame built by `get_price_history`: `時間戳` (millisecond
timestamps, kept as integers; `pd.to_datetime(·, unit='ms')` is an injective
re-labelling that nothing downstream inspects) and `價格` (price). -/
structure DataFrame where
  timestamp : List ℤ
  price : List ℚ
  deriving Repr, DecidableEq

/-- The frame returned by `calculate_macd_rsi`: the input's two columns plus
the five indicator columns added by app.py lines 41-51.  The RSI column can
contain NaN cells, modelled as `none`. -/
structure IndicatorFrame where
  timestamp : List ℤ
  price : List ℚ
  EMA12 : List ℚ
  EMA26 : List ℚ
  MACD : List ℚ
  Signal : List ℚ
  RSI : List (Option ℚ)
  deriving Repr, DecidableEq

/-- Smoothing factor of `ewm(span=s, adjust=False)`: α = 2/(s+1). -/
def alpha (span : ℕ) : ℚ := 2 / (span + 1)

/-- Recursive tail of the adjust=False exponentially weighted mean: each
output is `a·x + (1−a)·prev`. -/
def ewmAux (a : ℚ) : ℚ → List ℚ → List ℚ
  | _, [] => []
  | prev, x :: xs => (a * x + (1 - a) * prev) :: ewmAux a (a * x + (1 - a) * prev) xs

/-- `Series.ewm(span=s, adjust=False).mean()`: seeded with the first value,
then the recurrence `y[i] = α·x[i] + (1−α)·y[i−1]`. -/
def ewm (span : ℕ) : List ℚ → List ℚ
  | [] => []
  | x :: xs => x :: ewmAux (alpha span) x xs

/-- `Series.diff()`: NaN (`none`) at index 0, `x[i] − x[i−1]` for i ≥ 1. -/
def diff : List ℚ → List (Option ℚ)
  | [] => []
  | x :: t => none :: List.zipWith (fun a b => some (b - a)) (x :: t) t

/-- `delta.where(delta > 0, 0)` (app.py line 46): keep positive deltas,
everything else — negative, zero, and the NaN at index 0 — becomes 0. -/
def gain (xs : List ℚ) : List ℚ :=
  (diff xs).map fun d =>
    match d with
    | none => 0
    | some v => if 0 < v then v else 0

/-- `-delta.where(delta < 0, 0)` (app.py line 47): the magnitude of negative
deltas, everything else — positive, zero, and the NaN at index 0 — is 0. -/
def loss (xs : List ℚ) : List ℚ :=
  (diff xs).map fun d =>
    match d with
    | none => 0
    | some v => if v < 0 then -v else 0

/-- `Series.rolling(w).mean()` on a NaN-free series: NaN (`none`) while fewer
than `w` observations are in the window, else the mean of cells i−w+1 … i. -/
def rollingMean (w : ℕ) (xs : List ℚ) : List (Option ℚ) :=
  (List.range xs.length).map fun i =>
    if w ≤ i + 1 then some (((xs.take (i + 1)).drop (i + 1 - w)).sum / w) else none

/-- One cell of `100 - 100/(1 + avg_gain/avg_loss)` (app.py lines 50-51) in
IEEE semantics: NaN inputs propagate; `avg_loss = 0` with `avg_gain > 0`
gives `rs = +inf` hence exactly 100; `0/0` is NaN. -/
def rsiOfAvgs : Option ℚ → Option ℚ → Option ℚ
  | some g, some l =>
      if l = 0 then (if g = 0 then none else some 100)
      else some (100 - 100 / (1 + g / l))
  | _, _ => none

/-- The RSI column of `calculate_macd_rsi` (app.py lines 45-51). -/
def rsiSeries (xs : List ℚ) : List (Option ℚ) :=
  List.zipWith rsiOfAvgs (rollingMean 14 (gain xs)) (rollingMean 14 (loss xs))

/-- The indicator engine `calculate_macd_rsi` (app.py lines 39-52).  The
source first takes `df.copy()` and only assigns columns of that copy, so the
caller's frame is untouched; value semantics of the embedding express the
same fact.  The copy keeps the original `時間戳`/`價格` columns and gains
EMA12, EMA26, MACD, Signal and RSI. -/
def calculate_macd_rsi (df : DataFrame) : IndicatorFrame :=
  { timestamp := df.timestamp
    price := df.price
    EMA12 := ewm 12 df.price
    EMA26 := ewm 26 df.price
    MACD := List.zipWith (fun a b => a - b) (ewm 12 df.price) (ewm 26 df.price)
    Signal := ewm 9 (List.zipWith (fun a b => a - b) (ewm 12 df.price) (ewm 26 df.price))
    RSI := rsiSeries df.price }

/-- Observable outcome of the provider interaction inside
`get_price_history` (app.py lines 27-34).  The code never inspects the HTTP
status; a non-2xx response surfaces either as `res.json()` raising on a
non-JSON error body (`badJson`) or as a JSON error body without a usable
`prices` list (`missingPrices`, the `data['prices']` KeyError). -/
inductive FetchOutcome where
  | networkError
  | timeout
  | badJson
  | missingPrices
  | prices (ps : List (ℤ × ℚ))
  deriving Repr, DecidableEq

/-- `get_price_history` (app.py lines 26-37): the whole body is wrapped in
`try/except Exception`, so every raising path returns `None` (`none`); a
well-formed `prices` list — empty included — becomes a DataFrame. -/
def get_price_history : FetchOutcome → Option DataFrame
  | .networkError => none
  | .timeout => none
  | .badJson => none
  | .missingPrices => none
  | .prices ps => some { timestamp := ps.map Prod.fst, price := ps.map Prod.snd }

/-- The success test every caller applies to the fetch result
(`df is not None and not df.empty`, app.py line 150 / auto_query.py line 26). -/
def fetchSucceeded : Option DataFrame → Bool
  | none => false
  | some df => !df.price.isEmpty

/-- The last cell of `df['價格'].rolling(5).mean()` (app.py lines 83/153):
NaN (`none`) when the series has fewer than 5 samples. -/
def ma5Last (xs : List ℚ) : Option ℚ :=
  (rollingMean 5 xs).getD (xs.length - 1) none

/-- The buy/sell decision recorded by `save_history` (app.py line 84) and
shown by the main page (app.py line 154): `"買進"` iff
`latest < rolling(5).mean().iloc[-1]` — a comparison with NaN is False, so
fewer than 5 samples or a tie yields `"賣出"`.  `iloc[-1]` raises on an
empty frame, modelled by `none`. -/
def recommendAction (xs : List ℚ) : Option String :=
  xs.getLast?.map fun latest =>
    match ma5Last xs with
    | none => "賣出"
    | some m => if latest < m then "買進" else "賣出"

theorem ewmAux_length (a prev : ℚ) (xs : List ℚ) :
    (ewmAux a prev xs).length = xs.length := by
  induction xs generalizing prev with
  | nil => rfl
  | cons x t ih => simp [ewmAux, ih]

theorem ewm_length (s : ℕ) (xs : List ℚ) : (ewm s xs).length = xs.length := by
  cases xs with
  | nil => rfl
  | cons x t => simp [ewm, ewmAux_length]

theorem ewm_head (s : ℕ) (xs : List ℚ) : (ewm s xs).head? = xs.head? := by
  cases xs with
  | nil => rfl
  | cons x t => rfl

theorem ewmAux_getD (a : ℚ) (xs : List ℚ) (prev : ℚ) (i : ℕ) (hi : i < xs.length) :
    (ewmAux a prev xs).getD i 0 =
      a * xs.getD i 0 + (1 - a) * ((prev :: ewmAux a prev xs).getD i 0) := by
  induction xs generalizing prev i with
  | nil => simp at hi
  | cons x t ih =>
    cases i with
    | zero => simp [ewmAux]
    | succ j =>
      have hj : j < t.length := by simpa using hi
      simpa [ewmAux] using ih (a * x + (1 - a) * prev) j hj

theorem ewm_getD_succ (s : ℕ) (xs : List ℚ) (i : ℕ) (hi : i + 1 < xs.length) :
    (ewm s xs).getD (i + 1) 0 =
      alpha s * xs.getD (i + 1) 0 + (1 - alpha s) * (ewm s xs).getD i 0 := by
  cases xs with
  | nil => simp at hi
  | cons x t =>
    have ht : i < t.length := by simpa using hi
    simpa [ewm] using ewmAux_getD (alpha s) t x i ht

theorem diff_length (xs : List ℚ) : (diff xs).length = xs.length := by
  cases xs with
  | nil => rfl
  | cons x t => simp [diff, List.length_zipWith]

theorem gain_length (xs : List ℚ) : (gain xs).length = xs.length := by
  simp [gain, diff_length]

theorem loss_length (xs : List ℚ) : (loss xs).length = xs.length := by
  simp [loss, diff_length]

theorem rollingMean_length (w : ℕ) (xs : List ℚ) :
    (rollingMean w xs).length = xs.length := by
  simp [rollingMean]

theorem getD_of_length_le {α : Type} (l : List α) (d : α) (i : ℕ)
    (h : l.length ≤ i) : l.getD i d = d := by
  simp [List.getD_eq_getElem?_getD, List.getElem?_eq_none h]

theorem rollingMean_getD (w : ℕ) (xs : List ℚ) (i : ℕ) (hi : i < xs.length) :
    (rollingMean w xs).getD i none =
      if w ≤ i + 1 then some (((xs.take (i + 1)).drop (i + 1 - w)).sum / w)
      else none := by
  have h' : i < (rollingMean w xs).length := by
    simpa [rollingMean_length] using hi
  rw [List.getD_eq_getElem _ _ h']
  simp [rollingMean]

theorem rsiSeries_length (xs : List ℚ) : (rsiSeries xs).length = xs.length := by
  simp [rsiSeries, List.length_zipWith, rollingMean_length, gain_length, loss_length]

theorem rsiSeries_getD (xs : List ℚ) (i : ℕ) (hi : i < xs.length) :
    (rsiSeries xs).getD i none =
      rsiOfAvgs ((rollingMean 14 (gain xs)).getD i none)
        ((rollingMean 14 (loss xs)).getD i none) := by
  have h1 : i < (rollingMean 14 (gain xs)).length := by
    simpa [rollingMean_length, gain_length] using hi
  have h2 : i < (rollingMean 14 (loss xs)).length := by
    simpa [rollingMean_length, loss_length] using hi
  have h' : i < (rsiSeries xs).length := by simpa [rsiSeries_length] using hi
  rw [List.getD_eq_getElem _ _ h', List.getD_eq_getElem _ _ h1,
    List.getD_eq_getElem _ _ h2]
  simp [rsiSeries]

theorem zipWith_sub_length (xs ys : List ℚ) :
    (List.zipWith (fun a b => a - b) xs ys).length = min xs.length ys.length :=
  List.length_zipWith ..

theorem zipWith_sub_getD (xs ys : List ℚ) (i : ℕ)
    (hx : i < xs.length) (hy : i < ys.length) :
    (List.zipWith (fun a b => a - b) xs ys).getD i 0 =
      xs.getD i 0 - ys.getD i 0 := by
  have h' : i < (List.zipWith (fun a b => a - b) xs ys).length := by
    rw [List.length_zipWith]
    omega
  rw [List.getD_eq_getElem _ _ h', List.getD_eq_getElem _ _ hx,
    List.getD_eq_getElem _ _ hy]
  simp

theorem gain_nonneg (xs : List ℚ) : ∀ x ∈ gain xs, 0 ≤ x := by
  intro x hx
  simp only [gain, List.mem_map] at hx
  obtain ⟨d, _, rfl⟩ := hx
  cases d with
  | none => exact le_refl 0
  | some v =>
    dsimp only
    split
    · linarith
    · exact le_refl 0

theorem loss_nonneg (xs : List ℚ) : ∀ x ∈ loss xs, 0 ≤ x := by
  intro x hx
  simp only [loss, List.mem_map] at hx
  obtain ⟨d, _, rfl⟩ := hx
  cases d with
  | none => exact le_refl 0
  | some v =>
    dsimp only
    split
    · linarith
    · exact le_refl 0

theorem rollingMean_getD_nonneg (w : ℕ) (ys : List ℚ) (hys : ∀ x ∈ ys, 0 ≤ x)
    (i : ℕ) (v : ℚ) (h : (rollingMean w ys).getD i none = some v) : 0 ≤ v := by
  by_cases hi : i < ys.length
  · rw [rollingMean_getD w ys i hi] at h
    split at h
    · have hsub : ((ys.take (i + 1)).drop (i + 1 - w)) ⊆ ys := fun x hx =>
        List.take_subset _ _ (List.drop_subset _ _ hx)
      have hsum : 0 ≤ ((ys.take (i + 1)).drop (i + 1 - w)).sum :=
        List.sum_nonneg fun x hx => hys x (hsub hx)
      injection h with h
      rw [← h]
      exact div_nonneg hsum (by positivity)
    · exact absurd h (by simp)
  · rw [getD_of_length_le] at h
    · exact absurd h (by simp)
    · rw [rollingMean_length]; omega

theorem rsiOfAvgs_bounds (g l v : ℚ) (hg : 0 ≤ g) (hl : 0 ≤ l)
    (h : rsiOfAvgs (some g) (some l) = some v) : 0 ≤ v ∧ v ≤ 100 := by
  simp only [rsiOfAvgs] at h
  by_cases h0 : l = 0
  · rw [if_pos h0] at h
    by_cases hg0 : g = 0
    · rw [if_pos hg0] at h
      exact absurd h (by simp)
    · rw [if_neg hg0] at h
      injection h with h
      rw [← h]
      norm_num
  · rw [if_neg h0] at h
    injection h with h
    rw [← h]
    have hl' : 0 < l := lt_of_le_of_ne hl (Ne.symm h0)
    have hrs : 0 ≤ g / l := div_nonneg hg hl'.le
    have hpos : (0 : ℚ) < 1 + g / l := by linarith
    have hdiv_le : 100 / (1 + g / l) ≤ 100 := by
      rw [div_le_iff₀ hpos]
      nlinarith
    have hdiv_pos : (0 : ℚ) < 100 / (1 + g / l) := by positivity
    constructor <;> linarith

theorem diff_pos_of_chain :
    ∀ xs : List ℚ, List.Chain' (· < ·) xs → ∀ v : ℚ, some v ∈ diff xs → 0 < v := by
  intro xs
  induction xs with
  | nil => intro _ v hv; simp [diff] at hv
  | cons x t ih =>
    intro hch v hv
    cases t with
    | nil => simp [diff] at hv
    | cons y t' =>
      rw [List.chain'_cons] at hch
      have hd : diff (x :: y :: t') =
          none :: some (y - x) ::
            List.zipWith (fun a b => some (b - a)) (y :: t') t' := rfl
      rw [hd] at hv
      simp only [List.mem_cons] at hv
      rcases hv with h1 | h2 | h3
      · exact absurd h1 (by simp)
      · injection h2 with h2
        rw [h2]
        linarith [hch.1]
      · refine ih hch.2 v ?_
        have hd' : diff (y :: t') =
            none :: List.zipWith (fun a b => some (b - a)) (y :: t') t' := rfl
        rw [hd']
        exact List.mem_cons_of_mem _ h3

theorem loss_eq_replicate (xs : List ℚ) (hch : List.Chain' (· < ·) xs) :
    loss xs = List.replicate xs.length 0 := by
  rw [List.eq_replicate_iff]
  refine ⟨loss_length xs, ?_⟩
  intro b hb
  simp only [loss, List.mem_map] at hb
  obtain ⟨d, hd, rfl⟩ := hb
  cases d with
  | none => rfl
  | some v =>
    have hpos := diff_pos_of_chain xs hch v hd
    dsimp only
    rw [if_neg (by linarith)]

theorem avg_loss_zero (xs : List ℚ) (hch : List.Chain' (· < ·) xs)
    (i : ℕ) (v : ℚ)
    (h : (rollingMean 14 (loss xs)).getD i none = some v) : v = 0 := by
  by_cases hi : i < (loss xs).length
  · rw [rollingMean_getD 14 (loss xs) i hi] at h
    split at h
    · injection h with h
      rw [loss_eq_replicate xs hch, List.take_replicate, List.drop_replicate,
        List.sum_replicate] at h
      simpa using h.symm
    · exact absurd h (by simp)
  · rw [getD_of_length_le] at h
    · exact absurd h (by simp)
    · rw [rollingMean_length]; omega

theorem zipWith_diff_getD (xs ys : List ℚ) (j : ℕ)
    (hx : j < xs.length) (hy : j < ys.length) :
    (List.zipWith (fun a b => some (b - a)) xs ys).getD j none =
      some (ys.getD j 0 - xs.getD j 0) := by
  have h' : j < (List.zipWith (fun a b => some (b - a)) xs ys).length := by
    rw [List.length_zipWith]; omega
  rw [List.getD_eq_getElem _ _ h', List.getD_eq_getElem _ _ hx,
    List.getD_eq_getElem _ _ hy]
  simp

theorem diff_getD_succ (xs : List ℚ) (j : ℕ) (h : j + 1 < xs.length) :
    (diff xs).getD (j + 1) none = some (xs.getD (j + 1) 0 - xs.getD j 0) := by
  cases xs with
  | nil => simp at h
  | cons x t =>
    have hj : j < t.length := by simpa using h
    have hx : j < (x :: t).length := by simp; omega
    show (none :: List.zipWith (fun a b => some (b - a)) (x :: t) t).getD
        (j + 1) none = _
    rw [List.getD_cons_succ, zipWith_diff_getD (x :: t) t j hx hj,
      List.getD_cons_succ]

theorem gain_getD_succ (xs : List ℚ) (j : ℕ) (h : j + 1 < xs.length) :
    (gain xs).getD (j + 1) 0 =
      if 0 < xs.getD (j + 1) 0 - xs.getD j 0
      then xs.getD (j + 1) 0 - xs.getD j 0 else 0 := by
  have hlen : j + 1 < (diff xs).length := by rw [diff_length]; exact h
  rw [gain, List.getD_eq_getElem _ _ (by rw [List.length_map]; exact hlen),
    List.getElem_map]
  have hd := diff_getD_succ xs j h
  rw [List.getD_eq_getElem _ _ hlen] at hd
  rw [hd]

theorem chain_getD_lt (xs : List ℚ) (hch : List.Chain' (· < ·) xs)
    (j : ℕ) (h : j + 1 < xs.length) : xs.getD j 0 < xs.getD (j + 1) 0 := by
  rw [List.getD_eq_getElem _ _ (by omega), List.getD_eq_getElem _ _ h]
  exact List.chain'_iff_get.mp hch j (by omega)

theorem avg_gain_pos_of_chain (xs : List ℚ) (hch : List.Chain' (· < ·) xs)
    (i : ℕ) (h13 : 13 ≤ i) (hi : i < xs.length) :
    0 < (((gain xs).take (i + 1)).drop (i + 1 - 14)).sum := by
  have hi' : i < (gain xs).length := by rw [gain_length]; exact hi
  have hWlen : (((gain xs).take (i + 1)).drop (i + 1 - 14)).length = 14 := by
    rw [List.length_drop, List.length_take, gain_length]
    omega
  have h13' : 13 < (((gain xs).take (i + 1)).drop (i + 1 - 14)).length := by omega
  have hWnn : ∀ x ∈ ((gain xs).take (i + 1)).drop (i + 1 - 14), 0 ≤ x :=
    fun x hx => gain_nonneg xs x (List.take_subset _ _ (List.drop_subset _ _ hx))
  have hgi : 0 < (gain xs).getD i 0 := by
    have hj : i = (i - 1) + 1 := by omega
    rw [hj, gain_getD_succ xs (i - 1) (by omega)]
    have hlt := chain_getD_lt xs hch (i - 1) (by omega)
    rw [if_pos (by linarith)]
    linarith
  have hWi : (((gain xs).take (i + 1)).drop (i + 1 - 14))[13] =
      (gain xs).getD i 0 := by
    rw [List.getElem_drop, List.getElem_take]
    have hidx : i + 1 - 14 + 13 = i := by omega
    simp only [hidx]
    rw [List.getD_eq_getElem _ _ hi']
  have hmem : (gain xs).getD i 0 ∈ ((gain xs).take (i + 1)).drop (i + 1 - 14) := by
    rw [← hWi]
    exact List.getElem_mem _
  have hle := List.single_le_sum hWnn _ hmem
  linarith

theorem rsiOfAvgs_none_left (x : Option ℚ) : rsiOfAvgs none x = none := by
  cases x <;> rfl

theorem rsiOfAvgs_none_right (x : Option ℚ) : rsiOfAvgs x none = none := by
  cases x <;> rfl

theorem rsiOfAvgs_ne_none_iff (g l : ℚ) :
    rsiOfAvgs (some g) (some l) ≠ none ↔ ¬(g = 0 ∧ l = 0) := by
  simp only [rsiOfAvgs]
  by_cases hl : l = 0
  · by_cases hg : g = 0
    · simp [hl, hg]
    · simp [hl, hg]
  · simp [hl]

/-- C1: for every non-empty price series the indicator engine computes the
fast (period 12) and slow (period 26) EMA with smoothing factor
α = 2/(p+1), by the recurrence `ema[0] = price[0]`,
`ema[i] = α·price[i] + (1−α)·ema[i−1]`; the seed is exact and both EMA
columns have the same length as the input series. -/
theorem claim_C1_ema_recurrence (df : DataFrame) (hne : df.price ≠ []) :
    alpha 12 = 2 / 13 ∧ alpha 26 = 2 / 27 ∧
    (calculate_macd_rsi df).EMA12.length = df.price.length ∧
    (calculate_macd_rsi df).EMA26.length = df.price.length ∧
    (calculate_macd_rsi df).EMA12.head? = df.price.head? ∧
    (calculate_macd_rsi df).EMA26.head? = df.price.head? ∧
    (∀ i, i + 1 < df.price.length →
      (calculate_macd_rsi df).EMA12.getD (i + 1) 0 =
        alpha 12 * df.price.getD (i + 1) 0 +
          (1 - alpha 12) * (calculate_macd_rsi df).EMA12.getD i 0) ∧
    (∀ i, i + 1 < df.price.length →
      (calculate_macd_rsi df).EMA26.getD (i + 1) 0 =
        alpha 26 * df.price.getD (i + 1) 0 +
          (1 - alpha 26) * (calculate_macd_rsi df).EMA26.getD i 0) := by
  refine ⟨by norm_num [alpha], by norm_num [alpha],
    ewm_length 12 df.price, ewm_length 26 df.price,
    ewm_head 12 df.price, ewm_head 26 df.price, ?_, ?_⟩
  · intro i hi
    exact ewm_getD_succ 12 df.price i hi
  · intro i hi
    exact ewm_getD_succ 26 df.price i hi

theorem claim_C1_witness :
    (calculate_macd_rsi ⟨[0, 1], [10, 16]⟩).EMA12.length = 2 ∧
    (calculate_macd_rsi ⟨[0, 1], [10, 16]⟩).EMA12.getD 1 0 =
      alpha 12 * ([10, 16] : List ℚ).getD 1 0 +
        (1 - alpha 12) * (calculate_macd_rsi ⟨[0, 1], [10, 16]⟩).EMA12.getD 0 0 := by
  have h := claim_C1_ema_recurrence ⟨[0, 1], [10, 16]⟩ (List.cons_ne_nil _ _)
  exact ⟨h.2.2.1, h.2.2.2.2.2.2.1 0 (by decide)⟩

/-- C3: for every non-empty series, MACD is the pointwise difference of
the 12- and 26-period EMAs, Signal is the 9-period EMA of MACD with the
same first-value seeding (`signal[0] = macd[0]`), and both columns are as
long as the input series (defined at every index). -/
theorem claim_C3_macd_signal (df : DataFrame) (hne : df.price ≠ []) :
    alpha 9 = 2 / 10 ∧
    (calculate_macd_rsi df).MACD.length = df.price.length ∧
    (calculate_macd_rsi df).Signal.length = df.price.length ∧
    (∀ i, i < df.price.length →
      (calculate_macd_rsi df).MACD.getD i 0 =
        (calculate_macd_rsi df).EMA12.getD i 0 -
          (calculate_macd_rsi df).EMA26.getD i 0) ∧
    (calculate_macd_rsi df).Signal.head? = (calculate_macd_rsi df).MACD.head? ∧
    (∀ i, i + 1 < df.price.length →
      (calculate_macd_rsi df).Signal.getD (i + 1) 0 =
        alpha 9 * (calculate_macd_rsi df).MACD.getD (i + 1) 0 +
          (1 - alpha 9) * (calculate_macd_rsi df).Signal.getD i 0) := by
  have hM : (calculate_macd_rsi df).MACD.length = df.price.length := by
    show (List.zipWith (fun a b => a - b) (ewm 12 df.price)
      (ewm 26 df.price)).length = df.price.length
    rw [zipWith_sub_length, ewm_length, ewm_length, min_self]
  refine ⟨by norm_num [alpha], hM, ?_, ?_, ?_, ?_⟩
  · show (ewm 9 (List.zipWith (fun a b => a - b) (ewm 12 df.price)
      (ewm 26 df.price))).length = df.price.length
    rw [ewm_length]
    exact hM
  · intro i hi
    show (List.zipWith (fun a b => a - b) (ewm 12 df.price)
        (ewm 26 df.price)).getD i 0 =
      (ewm 12 df.price).getD i 0 - (ewm 26 df.price).getD i 0
    exact zipWith_sub_getD _ _ i (by rw [ewm_length]; exact hi)
      (by rw [ewm_length]; exact hi)
  · exact ewm_head 9 _
  · intro i hi
    have hm : i + 1 < (List.zipWith (fun a b => a - b) (ewm 12 df.price)
        (ewm 26 df.price)).length := by
      rw [zipWith_sub_length, ewm_length, ewm_length, min_self]
      exact hi
    exact ewm_getD_succ 9 _ i hm

theorem claim_C3_witness :
    (calculate_macd_rsi ⟨[0, 1], [10, 16]⟩).MACD.getD 0 0 =
      (calculate_macd_rsi ⟨[0, 1], [10, 16]⟩).EMA12.getD 0 0 -
        (calculate_macd_rsi ⟨[0, 1], [10, 16]⟩).EMA26.getD 0 0 :=
  (claim_C3_macd_signal ⟨[0, 1], [10, 16]⟩ (List.cons_ne_nil _ _)).2.2.2.1 0
    (by decide)

/-- C8: the indicator engine never fails and maps an empty price series to
an empty output: every derived column of `calculate_macd_rsi` is empty
(the model is a total function, so no exception is possible). -/
theorem claim_C8_empty (df : DataFrame) (hp : df.price = []) :
    (calculate_macd_rsi df).price = [] ∧
    (calculate_macd_rsi df).EMA12 = [] ∧
    (calculate_macd_rsi df).EMA26 = [] ∧
    (calculate_macd_rsi df).MACD = [] ∧
    (calculate_macd_rsi df).Signal = [] ∧
    (calculate_macd_rsi df).RSI = [] := by
  obtain ⟨ts, p⟩ := df
  dsimp only at hp
  subst hp
  exact ⟨rfl, rfl, rfl, rfl, rfl, rfl⟩

theorem claim_C8_witness :
    (calculate_macd_rsi ⟨[], []⟩).RSI = [] :=
  (claim_C8_empty ⟨[], []⟩ rfl).2.2.2.2.2

/-- C9: `calculate_macd_rsi` works on a copy (app.py line 40), so the
caller's columns are unchanged — in the value-semantics model the output
carries the input's `時間戳` and `價格` columns verbatim — and the output
keeps the input's row count in every column, original and derived. -/
theorem claim_C9_frame (df : DataFrame) :
    (calculate_macd_rsi df).timestamp = df.timestamp ∧
    (calculate_macd_rsi df).price = df.price ∧
    (calculate_macd_rsi df).EMA12.length = df.price.length ∧
    (calculate_macd_rsi df).EMA26.length = df.price.length ∧
    (calculate_macd_rsi df).MACD.length = df.price.length ∧
    (calculate_macd_rsi df).Signal.length = df.price.length ∧
    (calculate_macd_rsi df).RSI.length = df.price.length := by
  have hM : (calculate_macd_rsi df).MACD.length = df.price.length := by
    show (List.zipWith (fun a b => a - b) (ewm 12 df.price)
      (ewm 26 df.price)).length = df.price.length
    rw [zipWith_sub_length, ewm_length, ewm_length, min_self]
  refine ⟨rfl, rfl, ewm_length 12 _, ewm_length 26 _, hM, ?_, rsiSeries_length _⟩
  show (ewm 9 (List.zipWith (fun a b => a - b) (ewm 12 df.price)
    (ewm 26 df.price))).length = df.price.length
  rw [ewm_length]
  exact hM

theorem diff_replicate_eq_zero (n : ℕ) (c : ℚ) :
    ∀ v : ℚ, some v ∈ diff (List.replicate n c) → v = 0 := by
  induction n with
  | zero => intro v hv; simp [diff] at hv
  | succ m ih =>
    intro v hv
    cases m with
    | zero => simp [diff, List.replicate] at hv
    | succ k =>
      have hd : diff (List.replicate (k + 2) c) =
          none :: some (c - c) ::
            List.zipWith (fun a b => some (b - a))
              (List.replicate (k + 1) c) (List.replicate k c) := rfl
      rw [hd] at hv
      simp only [List.mem_cons] at hv
      rcases hv with h1 | h2 | h3
      · exact absurd h1 (by simp)
      · injection h2 with h2
        rw [h2, sub_self]
      · refine ih v ?_
        have hd' : diff (List.replicate (k + 1) c) =
            none :: List.zipWith (fun a b => some (b - a))
              (List.replicate (k + 1) c) (List.replicate k c) := rfl
        rw [hd']
        exact List.mem_cons_of_mem _ h3

theorem gain_replicate (n : ℕ) (c : ℚ) :
    gain (List.replicate n c) = List.replicate n 0 := by
  rw [List.eq_replicate_iff]
  refine ⟨by rw [gain_length, List.length_replicate], ?_⟩
  intro b hb
  simp only [gain, List.mem_map] at hb
  obtain ⟨d, hd, rfl⟩ := hb
  cases d with
  | none => rfl
  | some v =>
    have hv := diff_replicate_eq_zero n c v hd
    dsimp only
    rw [if_neg (by simp [hv])]

theorem loss_replicate (n : ℕ) (c : ℚ) :
    loss (List.replicate n c) = List.replicate n 0 := by
  rw [List.eq_replicate_iff]
  refine ⟨by rw [loss_length, List.length_replicate], ?_⟩
  intro b hb
  simp only [loss, List.mem_map] at hb
  obtain ⟨d, hd, rfl⟩ := hb
  cases d with
  | none => rfl
  | some v =>
    have hv := diff_replicate_eq_zero n c v hd
    dsimp only
    rw [if_neg (by simp [hv])]

theorem rsiSeries_replicate (n : ℕ) (c : ℚ) (i : ℕ) :
    (rsiSeries (List.replicate n c)).getD i none = none := by
  by_cases hi : i < n
  · have hlen : i < (List.replicate n c).length := by simpa using hi
    rw [rsiSeries_getD _ i hlen, gain_replicate, loss_replicate]
    have hi0 : i < (List.replicate n (0 : ℚ)).length := by simpa using hi
    rw [rollingMean_getD 14 _ i hi0]
    split
    · rw [List.take_replicate, List.drop_replicate, List.sum_replicate]
      simp [rsiOfAvgs]
    · exact rsiOfAvgs_none_left _
  · refine getD_of_length_le _ _ _ ?_
    rw [rsiSeries_length, List.length_replicate]
    omega

theorem rsiSeries_chain_getD (xs : List ℚ) (hch : List.Chain' (· < ·) xs)
    (i : ℕ) (h13 : 13 ≤ i) (hi : i < xs.length) :
    (rsiSeries xs).getD i none = some 100 := by
  rw [rsiSeries_getD xs i hi]
  have hig : i < (gain xs).length := by rw [gain_length]; exact hi
  have hil : i < (loss xs).length := by rw [loss_length]; exact hi
  rw [rollingMean_getD 14 (gain xs) i hig,
    if_pos (by omega : (14 : ℕ) ≤ i + 1),
    rollingMean_getD 14 (loss xs) i hil,
    if_pos (by omega : (14 : ℕ) ≤ i + 1)]
  have hl0 : (((loss xs).take (i + 1)).drop (i + 1 - 14)).sum = 0 := by
    rw [loss_eq_replicate xs hch, List.take_replicate, List.drop_replicate,
      List.sum_replicate]
    simp
  have hgpos := avg_gain_pos_of_chain xs hch i (by omega) hi
  rw [hl0, zero_div]
  have h1413 : i + 1 - 14 = i - 13 := by omega
  rw [h1413] at hgpos
  simp [rsiOfAvgs]
  exact hgpos.ne'

theorem chain_lt_upto14 :
    List.Chain' (· < ·)
      ([0, 1, 2, 3, 4, 5, 6, 7, 8, 9, 10, 11, 12, 13, 14] : List ℚ) := by
  simp only [List.chain'_cons, List.chain'_singleton, and_true]
  norm_num

/-- C4: wherever the RSI column holds a value, that value is between 0 and
100 inclusive (100 exactly when the window has gains and no losses). -/
theorem claim_C4_rsi_bounded (df : DataFrame) (i : ℕ) (v : ℚ)
    (h : (calculate_macd_rsi df).RSI.getD i none = some v) :
    0 ≤ v ∧ v ≤ 100 := by
  rw [show (calculate_macd_rsi df).RSI = rsiSeries df.price from rfl] at h
  by_cases hi : i < df.price.length
  · rw [rsiSeries_getD df.price i hi] at h
    cases hg : (rollingMean 14 (gain df.price)).getD i none with
    | none =>
      rw [hg, rsiOfAvgs_none_left] at h
      exact absurd h (by simp)
    | some g =>
      cases hl : (rollingMean 14 (loss df.price)).getD i none with
      | none =>
        rw [hg, hl, rsiOfAvgs_none_right] at h
        exact absurd h (by simp)
      | some l =>
        rw [hg, hl] at h
        exact rsiOfAvgs_bounds g l v
          (rollingMean_getD_nonneg 14 _ (gain_nonneg _) i g hg)
          (rollingMean_getD_nonneg 14 _ (loss_nonneg _) i l hl) h
  · rw [getD_of_length_le _ _ _ (by rw [rsiSeries_length]; omega)] at h
    exact absurd h (by simp)

theorem claim_C4_witness : (0 : ℚ) ≤ 100 ∧ (100 : ℚ) ≤ 100 :=
  claim_C4_rsi_bounded ⟨[], [0, 1, 2, 3, 4, 5, 6, 7, 8, 9, 10, 11, 12, 13, 14]⟩
    14 100
    (rsiSeries_chain_getD _ chain_lt_upto14 14 (by omega) (by norm_num))

/-- C5: on a strictly increasing price series every defined `avg_loss`
cell is 0 and the RSI is exactly 100 at every in-range index i ≥ 14. -/
theorem claim_C5_monotone (df : DataFrame)
    (hch : List.Chain' (· < ·) df.price) :
    (∀ i v, (rollingMean 14 (loss df.price)).getD i none = some v → v = 0) ∧
    (∀ i, 14 ≤ i → i < df.price.length →
      (calculate_macd_rsi df).RSI.getD i none = some 100) := by
  constructor
  · exact fun i v h => avg_loss_zero df.price hch i v h
  · intro i h14 hi
    rw [show (calculate_macd_rsi df).RSI = rsiSeries df.price from rfl]
    exact rsiSeries_chain_getD df.price hch i (by omega) hi

theorem claim_C5_witness :
    (calculate_macd_rsi
      ⟨[], [0, 1, 2, 3, 4, 5, 6, 7, 8, 9, 10, 11, 12, 13, 14]⟩).RSI.getD
        14 none = some 100 :=
  (claim_C5_monotone ⟨[], [0, 1, 2, 3, 4, 5, 6, 7, 8, 9, 10, 11, 12, 13, 14]⟩
    chain_lt_upto14).2 14 (by omega) (by norm_num)

/-- C2 counterexample: the claim "RSI is undefined at indices 0..13 and,
given ≥ 15 samples, defined at every index ≥ 14" is false on the code.  On
the strictly increasing 15-sample series 0..14 the RSI cell at index 13 is
already defined (value 100), because `delta.where(delta > 0, 0)` coerces
the NaN first delta to 0 and `rolling(14)` therefore completes at index
13; and on the constant 15-sample series the cell at index 14 is NaN
(avg_gain = avg_loss = 0 makes `rs = 0/0`), so it is not defined at every
index ≥ 14.  Both indices are in range (both RSI columns have length 15). -/
theorem claim_C2_counterexample :
    (calculate_macd_rsi
      ⟨[], [0, 1, 2, 3, 4, 5, 6, 7, 8, 9, 10, 11, 12, 13, 14]⟩).RSI.getD
        13 none = some 100 ∧
    (calculate_macd_rsi
      ⟨[], [0, 1, 2, 3, 4, 5, 6, 7, 8, 9, 10, 11, 12, 13, 14]⟩).RSI.length
        = 15 ∧
    (calculate_macd_rsi ⟨[], List.replicate 15 (1 : ℚ)⟩).RSI.getD 14 none
        = none ∧
    (calculate_macd_rsi ⟨[], List.replicate 15 (1 : ℚ)⟩).RSI.length = 15 :=
  ⟨rsiSeries_chain_getD _ chain_lt_upto14 13 (by omega) (by norm_num),
   rsiSeries_length _,
   rsiSeries_replicate 15 1 14,
   rsiSeries_length _⟩

/-- C2 amended: the RSI cell is NaN at indices 0..12; at every in-range
index i ≥ 13 it is defined exactly when the trailing 14-cell window of
gains and losses (which includes the artificial zero that pandas writes at
index 0 in place of the NaN delta) does not have both averages zero.  In
particular the first value appears at i = 13 — computed from deltas 1..13
plus that artificial zero — not at i = 14. -/
theorem claim_C2_amended (df : DataFrame) :
    (calculate_macd_rsi df).RSI.length = df.price.length ∧
    (∀ i, i < 13 → (calculate_macd_rsi df).RSI.getD i none = none) ∧
    (∀ i, 13 ≤ i → i < df.price.length →
      ((calculate_macd_rsi df).RSI.getD i none ≠ none ↔
        ¬((rollingMean 14 (gain df.price)).getD i none = some 0 ∧
          (rollingMean 14 (loss df.price)).getD i none = some 0))) := by
  have hRlen : (calculate_macd_rsi df).RSI.length = df.price.length :=
    rsiSeries_length df.price
  refine ⟨hRlen, ?_, ?_⟩
  · intro i hi13
    by_cases hi : i < df.price.length
    · rw [show (calculate_macd_rsi df).RSI = rsiSeries df.price from rfl,
        rsiSeries_getD df.price i hi]
      have hig : i < (gain df.price).length := by rw [gain_length]; exact hi
      rw [rollingMean_getD 14 (gain df.price) i hig, if_neg (by omega)]
      exact rsiOfAvgs_none_left _
    · exact getD_of_length_le _ _ _ (by rw [hRlen]; omega)
  · intro i h13 hi
    rw [show (calculate_macd_rsi df).RSI = rsiSeries df.price from rfl,
      rsiSeries_getD df.price i hi]
    have hig : i < (gain df.price).length := by rw [gain_length]; exact hi
    have hil : i < (loss df.price).length := by rw [loss_length]; exact hi
    rw [rollingMean_getD 14 (gain df.price) i hig,
      if_pos (by omega : (14 : ℕ) ≤ i + 1),
      rollingMean_getD 14 (loss df.price) i hil,
      if_pos (by omega : (14 : ℕ) ≤ i + 1),
      rsiOfAvgs_ne_none_iff]
    simp

theorem claim_C2_amended_witness :
    (calculate_macd_rsi ⟨[], List.replicate 15 (1 : ℚ)⟩).RSI.getD 3 none
        = none ∧
    ((calculate_macd_rsi ⟨[], List.replicate 15 (1 : ℚ)⟩).RSI.getD 14 none
        ≠ none ↔
      ¬((rollingMean 14 (gain (List.replicate 15 (1 : ℚ)))).getD 14 none
          = some 0 ∧
        (rollingMean 14 (loss (List.replicate 15 (1 : ℚ)))).getD 14 none
          = some 0)) :=
  ⟨(claim_C2_amended ⟨[], List.replicate 15 (1 : ℚ)⟩).2.1 3 (by omega),
   (claim_C2_amended ⟨[], List.replicate 15 (1 : ℚ)⟩).2.2 14 (by omega)
     (by norm_num)⟩

/-- C6: a well-formed provider response whose `prices` list is empty is not
collapsed into the untagged `None` that the exception paths produce:
`get_price_history` returns an explicit empty DataFrame (`some ⟨[], []⟩`),
distinguishable from `none`, and the callers' success test
(`df is not None and not df.empty`) classifies it as a failure, so it is
never presented as a successful non-empty series. -/
theorem claim_C6_empty_prices :
    get_price_history (.prices []) = some ⟨[], []⟩ ∧
    get_price_history (.prices []) ≠ none ∧
    fetchSucceeded (get_price_history (.prices [])) = false :=
  ⟨rfl, by simp [get_price_history], rfl⟩

/-- C7: every failing fetch — network error, timeout, a non-2xx response
surfacing as an unparseable or `prices`-less body, or a malformed/missing
`prices` field — is caught by the `try/except` and returns `none` (the
code's `None`), never a partial DataFrame, and the callers classify it as
a failure. -/
theorem claim_C7_failure_none (o : FetchOutcome)
    (h : o = .networkError ∨ o = .timeout ∨ o = .badJson ∨
      o = .missingPrices) :
    get_price_history o = none ∧
    fetchSucceeded (get_price_history o) = false := by
  rcases h with rfl | rfl | rfl | rfl <;> exact ⟨rfl, rfl⟩

theorem claim_C7_witness :
    get_price_history .networkError = none ∧
    fetchSucceeded (get_price_history .networkError) = false :=
  claim_C7_failure_none .networkError (Or.inl rfl)

/-- C10: for every non-empty queried series the recorded recommendation is
`"買進"` (buy) iff the latest price is strictly below the 5-sample rolling
mean at the last index; in every other case — a tie, or fewer than 5
samples (where the rolling mean is NaN and the `<` comparison is False) —
it is `"賣出"` (sell). -/
theorem claim_C10_recommendation (xs : List ℚ) (latest : ℚ)
    (h : xs.getLast? = some latest) :
    (xs.length < 5 → ma5Last xs = none) ∧
    (recommendAction xs = some "買進" ↔
      ∃ m, ma5Last xs = some m ∧ latest < m) ∧
    (recommendAction xs = some "賣出" ↔
      ¬∃ m, ma5Last xs = some m ∧ latest < m) := by
  have hne : xs ≠ [] := by
    intro he
    rw [he] at h
    simp at h
  have h5 : xs.length < 5 → ma5Last xs = none := by
    intro hlen
    have hpos : 0 < xs.length := List.length_pos.mpr hne
    have hlt : xs.length - 1 < xs.length := by omega
    rw [ma5Last, rollingMean_getD 5 xs _ hlt, if_neg (by omega)]
  have hstr : ("賣出" : String) ≠ "買進" := by decide
  refine ⟨h5, ?_⟩
  cases hm : ma5Last xs with
  | none =>
    have hr : recommendAction xs = some "賣出" := by
      simp only [recommendAction, h, hm, Option.map_some']
    constructor
    · constructor
      · intro hx
        rw [hr] at hx
        injection hx with hx
        exact absurd hx hstr
      · rintro ⟨m, hm', -⟩
        exact absurd hm' (by simp)
    · constructor
      · rintro - ⟨m, hm', -⟩
        exact absurd hm' (by simp)
      · intro _
        exact hr
  | some m =>
    by_cases hlt : latest < m
    · have hr : recommendAction xs = some "買進" := by
        simp only [recommendAction, h, hm, Option.map_some', if_pos hlt]
      constructor
      · exact ⟨fun _ => ⟨m, rfl, hlt⟩, fun _ => hr⟩
      · constructor
        · intro hsell
          rw [hr] at hsell
          injection hsell with hsell
          exact absurd hsell hstr.symm
        · intro hnex
          exact absurd ⟨m, rfl, hlt⟩ hnex
    · have hr : recommendAction xs = some "賣出" := by
        simp only [recommendAction, h, hm, Option.map_some', if_neg hlt]
      constructor
      · constructor
        · intro hx
          rw [hr] at hx
          injection hx with hx
          exact absurd hx hstr
        · rintro ⟨m', hm', hlt'⟩
          injection hm' with hmeq
          rw [← hmeq] at hlt'
          exact absurd hlt' hlt
      · constructor
        · intro _
          rintro ⟨m', hm', hlt'⟩
          injection hm' with hmeq
          rw [← hmeq] at hlt'
          exact absurd hlt' hlt
        · intro _
          exact hr

theorem claim_C10_witness :
    recommendAction [10, 10, 10, 10, 10, 0] = some "買進" := by
  have hma : ma5Last ([10, 10, 10, 10, 10, 0] : List ℚ) = some 8 := by
    rw [ma5Last,
      show ([10, 10, 10, 10, 10, 0] : List ℚ).length - 1 = 5 from rfl,
      rollingMean_getD 5 _ 5 (by norm_num), if_pos (by norm_num),
      show ((([10, 10, 10, 10, 10, 0] : List ℚ).take (5 + 1)).drop
        (5 + 1 - 5)) = [10, 10, 10, 10, 0] from rfl]
    norm_num
  exact ((claim_C10_recommendation [10, 10, 10, 10, 10, 0] 0 rfl).2.1).mpr
    ⟨8, hma, by norm_num⟩

end CryptoTracker
